import Mathlib

/-!
bgcut, an interactive GrabCut front end (`src/main.cpp`)

A shallow embedding of the class `BgCut` of `src/main.cpp`: its private state, the two
event handlers `ProcessKeyPress` and `ProcessMouseEvent`, the compositing helper
`MaskImageAndThen` and the export routine `SaveMaskedImageWithTransparentBg`.

The program is a thin state machine over OpenCV.  The OpenCV pieces it calls are embedded
as follows.

* Plain data operations whose result is fixed by the OpenCV headers and documentation
  (`cv::Rect(pt1, pt2)`, `Rect::area`, `Mat::empty`, `Mat::setTo`, `Mat & Scalar`,
  `Mat::copyTo(dst, mask)`, `cv::threshold(.., THRESH_BINARY)`, `cv::split`, `cv::merge`,
  `cv::circle(.., 1, .., -1)`) are written out as functions in the namespace `Cv`.
* The GrabCut solver, the BGR to gray weighting and the rectangle drawing routine are
  black boxes: they are the fields of a structure `Cv.Lib` that every handler takes as a
  parameter.
* Window and file output (`cv::imshow`, `cv::imwrite`) and every solver invocation are
  recorded as a list of `Effect`s returned by the handler, in program order.
* `std::optional::value()` on an empty optional throws `std::bad_optional_access`; the mouse
  handler therefore returns an `Except`.  Assertion failures raised inside OpenCV itself are
  not modelled: the library operations are total functions here.
-/

namespace Cv

/-! ## OpenCV constants (values from the OpenCV headers) -/

/-- GrabCut class `cv::GC_BGD`: an obvious background pixel. -/
def GC_BGD : Nat := 0
/-- GrabCut class `cv::GC_FGD`: an obvious foreground pixel. -/
def GC_FGD : Nat := 1
/-- GrabCut class `cv::GC_PR_BGD`: a possible background pixel. -/
def GC_PR_BGD : Nat := 2
/-- GrabCut class `cv::GC_PR_FGD`: a possible foreground pixel. -/
def GC_PR_FGD : Nat := 3

/-- GrabCut mode `cv::GC_INIT_WITH_RECT`. -/
def GC_INIT_WITH_RECT : Int := 0
/-- GrabCut mode `cv::GC_EVAL`, the default value of the `mode` argument of `cv::grabCut`. -/
def GC_EVAL : Int := 2

/-- Mouse event `cv::EVENT_MOUSEMOVE`. -/
def EVENT_MOUSEMOVE : Int := 0
/-- Mouse event `cv::EVENT_LBUTTONDOWN`. -/
def EVENT_LBUTTONDOWN : Int := 1
/-- Mouse event `cv::EVENT_LBUTTONUP`. -/
def EVENT_LBUTTONUP : Int := 4
/-- Mouse flag `cv::EVENT_FLAG_CTRLKEY`. -/
def EVENT_FLAG_CTRLKEY : Int := 8
/-- Mouse flag `cv::EVENT_FLAG_SHIFTKEY`. -/
def EVENT_FLAG_SHIFTKEY : Int := 16

/-! ## Points and rectangles -/

/-- The type `cv::Point`: integer pixel coordinates (`x` is the column, `y` the row). -/
structure Point where
  x : Int
  y : Int
deriving DecidableEq, Repr

/-- Reduction of an integer to the range of a 32-bit two's complement `int`: the value a
32-bit `int` operation leaves when its exact result is out of range (undefined behaviour
in C++, wrap-around on the usual targets).  It is the identity on the range of `int`. -/
def wrapInt32 (z : Int) : Int := (z + 2147483648) % 4294967296 - 2147483648

/-- The type `cv::Rect`: top-left corner, width and height. -/
structure Rect where
  x : Int
  y : Int
  width : Int
  height : Int
deriving DecidableEq, Repr

/-- The constructor `cv::Rect_(const Point_& pt1, const Point_& pt2)` of
`opencv2/core/types.hpp`:
`x = min(pt1.x, pt2.x); y = min(pt1.y, pt2.y);`
`width = max(pt1.x, pt2.x) - x; height = max(pt1.y, pt2.y) - y;`
The subtractions are 32-bit `int` subtractions. -/
def Rect.ofPoints (pt1 pt2 : Point) : Rect :=
  let x := min pt1.x pt2.x
  let y := min pt1.y pt2.y
  { x := x
    y := y
    width := wrapInt32 (max pt1.x pt2.x - x)
    height := wrapInt32 (max pt1.y pt2.y - y) }

/-- The value-initialised rectangle `cv::Rect()`, written `{}` at the call site. -/
def Rect.zero : Rect := { x := 0, y := 0, width := 0, height := 0 }

/-- The method `cv::Rect::area()`: `width * height`, a 32-bit `int` product. -/
def Rect.area (r : Rect) : Int := wrapInt32 (r.width * r.height)

/-! ## Scalars and matrices -/

/-- The type `cv::Scalar`: four components; a braced list with fewer entries leaves the
remaining components zero. -/
structure Scalar where
  v0 : Nat
  v1 : Nat := 0
  v2 : Nat := 0
  v3 : Nat := 0
deriving DecidableEq, Repr

/-- Component `c` of a scalar (zero beyond the fourth). -/
def Scalar.get (s : Scalar) (c : Nat) : Nat :=
  match c with
  | 0 => s.v0
  | 1 => s.v1
  | 2 => s.v2
  | 3 => s.v3
  | _ => 0

/-- An 8-bit `cv::Mat`: `rows`, `cols`, number of channels and the element at
(row, column, channel).  Only elements with `row < rows`, `column < cols` and
`channel < channels` belong to the matrix. -/
structure Mat where
  rows : Nat
  cols : Nat
  channels : Nat
  elem : Nat → Nat → Nat → Nat

/-- The default-constructed matrix `cv::Mat()`: no rows, no columns. -/
def Mat.nil : Mat := { rows := 0, cols := 0, channels := 1, elem := fun _ _ _ => 0 }

/-- The method `cv::Mat::empty()`: the matrix has no elements. -/
def Mat.empty (m : Mat) : Bool := m.rows == 0 || m.cols == 0

/-- The method `cv::Mat::setTo(value)`: every element of channel `c` becomes component `c`
of the scalar; an empty matrix is returned as it is. -/
def Mat.setTo (m : Mat) (value : Scalar) : Mat :=
  if m.empty then m else { m with elem := fun _ _ c => value.get c }

/-- The expression `m & s` for a matrix and a scalar: element-wise bitwise conjunction of
channel `c` with component `c` of the scalar, in a new matrix. -/
def Mat.bitAnd (m : Mat) (s : Scalar) : Mat :=
  { m with elem := fun i j c => m.elem i j c &&& s.get c }

/-- The call `src.copyTo(dst, mask)` into a fresh `dst`, with a single-channel mask: `dst`
gets the size and type of `src`, is filled with zeros, and receives the elements of `src`
where the mask is non-zero.  An empty mask means a plain copy of `src`. -/
def Mat.copyTo (src mask : Mat) : Mat :=
  if mask.empty then src
  else { src with elem := fun i j c => if mask.elem i j 0 ≠ 0 then src.elem i j c else 0 }

/-- The call `cv::threshold(src, dst, thresh, maxval, cv::THRESH_BINARY)`:
`dst = src > thresh ? maxval : 0`, element-wise. -/
def threshold (src : Mat) (thresh maxval : Nat) : Mat :=
  { src with elem := fun i j c => if src.elem i j c > thresh then maxval else 0 }

/-- The call `cv::split(m, channels)`: one single-channel matrix per channel of `m`. -/
def split (m : Mat) : List Mat :=
  (List.range m.channels).map fun c =>
    { rows := m.rows, cols := m.cols, channels := 1, elem := fun i j _ => m.elem i j c }

/-- The call `cv::merge(channels, dst)` for single-channel inputs of one size: channel `c` of
the result is the `c`-th input. -/
def merge (channels : List Mat) : Mat :=
  match channels with
  | [] => Mat.nil
  | m0 :: _ =>
    { rows := m0.rows, cols := m0.cols, channels := channels.length,
      elem := fun i j c => (channels.getD c Mat.nil).elem i j 0 }

/-- The call `cv::circle(img, center, 1, color, -1)`: a filled circle of radius 1.  With
thickness -1, line type `LINE_8` and no shift OpenCV runs its integer `Circle` routine with
`fill` set; for radius 1 its single pass paints the row of the centre from `x - 1` to
`x + 1` and the column of the centre in the rows `y - 1` and `y + 1`, clipped to the
image.  Rows are `y` coordinates and columns are `x` coordinates. -/
def circle1 (img : Mat) (center : Point) (color : Scalar) : Mat :=
  { img with elem := fun i j c =>
      if ((i : Int) = center.y ∧ center.x - 1 ≤ (j : Int) ∧ (j : Int) ≤ center.x + 1)
          ∨ ((j : Int) = center.x ∧ ((i : Int) = center.y - 1 ∨ (i : Int) = center.y + 1))
      then color.get c else img.elem i j c }

/-- What `cv::grabCut` leaves in its three in-out arguments. -/
structure GrabCutResult (M : Type) where
  mask : Mat
  bgdModel : M
  fgdModel : M

/-- The OpenCV routines the program uses as black boxes.  `M` is the type of a colour model
(`bgdModel`, `fgdModel`), opaque to the program.
* `grabCut img mask rect bgdModel fgdModel iterCount mode` is `cv::grabCut`;
* `bgr2gray b g r` is the gray level `cv::cvtColor(.., cv::COLOR_BGR2GRAY)` gives a pixel;
* `rectangle img rect color thickness` is `cv::rectangle` drawing on `img`. -/
structure Lib (M : Type) where
  grabCut : Mat → Mat → Rect → M → M → Int → Int → GrabCutResult M
  bgr2gray : Nat → Nat → Nat → Nat
  rectangle : Mat → Rect → Scalar → Int → Mat

/-- The call `cv::cvtColor(src, dst, cv::COLOR_BGR2GRAY)`: a single-channel matrix of the
gray levels of the pixels of `src` (channels 0, 1, 2 are blue, green, red). -/
def cvtColorBGR2GRAY {M : Type} (cv : Lib M) (src : Mat) : Mat :=
  { rows := src.rows, cols := src.cols, channels := 1,
    elem := fun i j _ => cv.bgr2gray (src.elem i j 0) (src.elem i j 1) (src.elem i j 2) }

end Cv

open Cv

/-! ## The class `BgCut` -/

/-- The observable actions of a handler, in program order. -/
inductive Effect (M : Type) where
  | imshow (img : Mat)
  | grabCut (img mask : Mat) (rect : Rect) (bgdModel fgdModel : M) (iterCount mode : Int)
  | imwrite (path : String) (img : Mat)

/-- Whether an effect is an invocation of the solver. -/
def Effect.isGrabCut {M : Type} : Effect M → Bool
  | Effect.grabCut _ _ _ _ _ _ _ => true
  | _ => false

/-- Number of solver invocations among the effects. -/
def solverCalls {M : Type} (effs : List (Effect M)) : Nat :=
  effs.countP Effect.isGrabCut

/-- The exception `std::bad_optional_access` thrown by `start_point_.value()`. -/
inductive Exn where
  | bad_optional_access
deriving DecidableEq, Repr

/-- The data members of `BgCut` (`src/main.cpp`, lines 131-135). -/
structure BgCut (M : Type) where
  image_ : Mat
  mask_ : Mat
  bg_model_ : M
  fg_model_ : M
  start_point_ : Option Point
  output_image_path_ : String

namespace BgCut

variable {M : Type}

/-- The constant `kBackground = {cv::GC_BGD}`. -/
def kBackground : Scalar := { v0 := GC_BGD }
/-- The constant `kForeground = {cv::GC_FGD}`. -/
def kForeground : Scalar := { v0 := GC_FGD }
/-- The constant `kSelectedRegionColor = {110, 250, 110}`. -/
def kSelectedRegionColor : Scalar := { v0 := 110, v1 := 250, v2 := 110 }

/-- The method `MaskImageAndThen`:
`bin_mask = mask_ & 1; image_.copyTo(masked_image, bin_mask); action(masked_image);`. -/
def MaskImageAndThen {α : Type} (s : BgCut M) (action : Mat → α) : α :=
  let bin_mask := s.mask_.bitAnd { v0 := 1 }
  let masked_image := s.image_.copyTo bin_mask
  action masked_image

/-- The method `DrawMaskedImage`: show the masked image. -/
def DrawMaskedImage (s : BgCut M) : List (Effect M) :=
  s.MaskImageAndThen fun masked_image => [Effect.imshow masked_image]

/-- The method `SaveMaskedImageWithTransparentBg`: gray conversion of the masked image,
binary threshold at 0 with maximum 255 as the alpha channel, appended to the channels of
the masked image, merged and written to the output path. -/
def SaveMaskedImageWithTransparentBg (cv : Lib M) (s : BgCut M) : List (Effect M) :=
  s.MaskImageAndThen fun masked_image =>
    let gray_image := cvtColorBGR2GRAY cv masked_image
    let alpha_channel := threshold gray_image 0 255
    let channels := split masked_image ++ [alpha_channel]
    let image_with_transparency := merge channels
    [Effect.imwrite s.output_image_path_ image_with_transparency]

/-- What a key press leaves behind: the return value, the new members, the effects. -/
structure KeyOutcome (M : Type) where
  should_exit : Bool
  state : BgCut M
  effects : List (Effect M)

/-- The method `ProcessKeyPress` (lines 74-96).  The key codes are the character codes
`c` = 99, `s` = 115, `n` = 110, `q` = 113. -/
def ProcessKeyPress (cv : Lib M) (s : BgCut M) (key_pressed : Int) : KeyOutcome M :=
  if key_pressed = 99 then
    let s1 := { s with mask_ := s.mask_.setTo kForeground }
    { should_exit := false
      state := { s1 with mask_ := Mat.nil }
      effects := s1.DrawMaskedImage }
  else if key_pressed = 115 then
    { should_exit := false, state := s, effects := s.SaveMaskedImageWithTransparentBg cv }
  else if key_pressed = 110 then
    if !s.mask_.empty then
      let r := cv.grabCut s.image_ s.mask_ Rect.zero s.bg_model_ s.fg_model_ 1 GC_EVAL
      let s1 := { s with mask_ := r.mask, bg_model_ := r.bgdModel, fg_model_ := r.fgdModel }
      { should_exit := false
        state := s1
        effects :=
          Effect.grabCut s.image_ s.mask_ Rect.zero s.bg_model_ s.fg_model_ 1 GC_EVAL
            :: s1.DrawMaskedImage }
    else
      { should_exit := false, state := s, effects := [] }
  else if key_pressed = 113 then
    { should_exit := true, state := s, effects := [] }
  else
    { should_exit := false, state := s, effects := [] }

/-- The test `(flags & cv::EVENT_FLAG_CTRLKEY) == cv::EVENT_FLAG_CTRLKEY`. -/
def ctrlKey (flags : Int) : Bool := Int.land flags EVENT_FLAG_CTRLKEY == EVENT_FLAG_CTRLKEY
/-- The test `(flags & cv::EVENT_FLAG_SHIFTKEY) == cv::EVENT_FLAG_SHIFTKEY`. -/
def shiftKey (flags : Int) : Bool :=
  Int.land flags EVENT_FLAG_SHIFTKEY == EVENT_FLAG_SHIFTKEY

/-- The two-way branch shared by the move and release cases (lines 102-105 and 113-116):
a filled radius-1 circle of `kForeground` under ctrl, else of `kBackground` under shift,
else nothing. -/
def paintStroke (mask : Mat) (x y : Int) (flags : Int) : Mat :=
  if ctrlKey flags then circle1 mask { x := x, y := y } kForeground
  else if shiftKey flags then circle1 mask { x := x, y := y } kBackground
  else mask

/-- The method `ProcessMouseEvent` (lines 98-129).  `flags` is the modifier bit mask the
window backend passes; `&` on `int` is `Int.land`. -/
def ProcessMouseEvent (cv : Lib M) (s : BgCut M) (event x y flags : Int) :
    Except Exn (BgCut M × List (Effect M)) :=
  if event = EVENT_MOUSEMOVE then
    if s.start_point_.isSome && !s.mask_.empty then
      Except.ok ({ s with mask_ := paintStroke s.mask_ x y flags }, [])
    else
      Except.ok (s, [])
  else if event = EVENT_LBUTTONDOWN then
    Except.ok ({ s with start_point_ := some { x := x, y := y } }, [])
  else if event = EVENT_LBUTTONUP then
    if !s.mask_.empty then
      Except.ok ({ s with mask_ := paintStroke s.mask_ x y flags, start_point_ := none }, [])
    else
      match s.start_point_ with
      | none => Except.error Exn.bad_optional_access
      | some start =>
        let rect := Rect.ofPoints start { x := x, y := y }
        if rect.area > 0 then
          let image_to_draw_over := cv.rectangle s.image_ rect kSelectedRegionColor 3
          let r := cv.grabCut s.image_ s.mask_ rect s.bg_model_ s.fg_model_ 1
            GC_INIT_WITH_RECT
          Except.ok
            ({ s with mask_ := r.mask, bg_model_ := r.bgdModel, fg_model_ := r.fgdModel,
                      start_point_ := none },
             [Effect.imshow image_to_draw_over,
              Effect.grabCut s.image_ s.mask_ rect s.bg_model_ s.fg_model_ 1
                GC_INIT_WITH_RECT])
        else
          Except.ok ({ s with start_point_ := none }, [])
  else
    Except.ok (s, [])


/-- An input event delivered while `Run` waits in `cv::waitKey()`: a key code returned by
`waitKey`, or a call of the mouse callback. -/
inductive Event where
  | key (key_pressed : Int)
  | mouse (event x y flags : Int)
deriving DecidableEq, Repr

/-- Whether an event is a release of the left button. -/
def Event.isRelease : Event → Bool
  | Event.mouse event _ _ _ => event == EVENT_LBUTTONUP
  | Event.key _ => false

/-- What a run of the event loop leaves behind. -/
structure RunOutcome (M : Type) where
  exited : Bool
  state : BgCut M
  effects : List (Effect M)

/-- The loop `while (!ProcessKeyPress(cv::waitKey())) {}` of `Run` (line 27) fed with a
finite sequence of events: each mouse event goes to `ProcessMouseEvent` (through
`MouseCallback`), each key to `ProcessKeyPress`; the loop ends when `ProcessKeyPress`
returns true, and an exception ends the run. -/
def Run (cv : Lib M) (s : BgCut M) : List Event → Except Exn (RunOutcome M)
  | [] => Except.ok { exited := false, state := s, effects := [] }
  | Event.key key_pressed :: rest =>
    let o := ProcessKeyPress cv s key_pressed
    if o.should_exit then
      Except.ok { exited := true, state := o.state, effects := o.effects }
    else
      match Run cv o.state rest with
      | Except.error e => Except.error e
      | Except.ok r => Except.ok { r with effects := o.effects ++ r.effects }
  | Event.mouse event x y flags :: rest =>
    match ProcessMouseEvent cv s event x y flags with
    | Except.error e => Except.error e
    | Except.ok (s1, effs) =>
      match Run cv s1 rest with
      | Except.error e => Except.error e
      | Except.ok r => Except.ok { r with effects := effs ++ r.effects }

/-! ## Contracts assumed of the solver -/

/-- In `GC_INIT_WITH_RECT` mode `cv::grabCut` creates the mask with the size of the image
(`initMaskWithRect` calls `mask.create(img.size(), CV_8UC1)`). -/
def InitSizesMask (cv : Lib M) : Prop :=
  ∀ (img mask : Mat) (rect : Rect) (bg fg : M),
    (cv.grabCut img mask rect bg fg 1 GC_INIT_WITH_RECT).mask.rows = img.rows
      ∧ (cv.grabCut img mask rect bg fg 1 GC_INIT_WITH_RECT).mask.cols = img.cols

/-- In `GC_EVAL` mode `cv::grabCut` returns a mask of the dimensions of the one it was
given. -/
def EvalKeepsSize (cv : Lib M) : Prop :=
  ∀ (img mask : Mat) (rect : Rect) (bg fg : M),
    (cv.grabCut img mask rect bg fg 1 GC_EVAL).mask.rows = mask.rows
      ∧ (cv.grabCut img mask rect bg fg 1 GC_EVAL).mask.cols = mask.cols

/-- In `GC_EVAL` mode `cv::grabCut` only rewrites the probable labels: an element that is
`GC_BGD` or `GC_FGD` keeps its value. -/
def EvalKeepsDefinite (cv : Lib M) : Prop :=
  ∀ (img mask : Mat) (rect : Rect) (bg fg : M) (i j : Nat),
    mask.elem i j 0 = GC_BGD ∨ mask.elem i j 0 = GC_FGD →
      (cv.grabCut img mask rect bg fg 1 GC_EVAL).mask.elem i j 0 = mask.elem i j 0

/-! ## Predicates used in the statements -/

/-- The pixel in row `i`, column `j` lies in the closed disk of radius 1 around the
point `(x, y)`. -/
@[reducible]
def inDisk1 (x y : Int) (i j : Nat) : Prop :=
  ((j : Int) - x) ^ 2 + ((i : Int) - y) ^ 2 ≤ 1

/-- The event is a press of the left button. -/
def Event.isPress : Event → Bool
  | Event.mouse event _ _ _ => event == EVENT_LBUTTONDOWN
  | Event.key _ => false

/-- A press occurs in `pre` with no release after it. -/
def PressPending (pre : List Event) : Prop :=
  ∃ a e c, pre = a ++ e :: c ∧ e.isPress = true ∧ ∀ e2 ∈ c, Event.isRelease e2 = false

/-! ## A small concrete instance

A toy solver that satisfies the contracts assumed of `cv::grabCut` below, a gray weighting,
and a 4 x 4 image; used to evaluate the handlers on concrete inputs. -/

/-- A toy `grabCut`.  In `GC_INIT_WITH_RECT` mode the mask gets the size of the image, with
`GC_PR_FGD` inside the rectangle and `GC_BGD` outside.  In every other mode the
probable labels are re-estimated from the brightness of the pixel and every other label
is kept.  The colour models count the invocations. -/
def demoGrabCut (img mask : Mat) (rect : Rect) (bgdModel fgdModel : Nat)
    (_iterCount mode : Int) : GrabCutResult Nat :=
  if mode = GC_INIT_WITH_RECT then
    { mask :=
        { rows := img.rows, cols := img.cols, channels := 1,
          elem := fun i j _ =>
            if rect.x ≤ (j : Int) ∧ (j : Int) < rect.x + rect.width
                ∧ rect.y ≤ (i : Int) ∧ (i : Int) < rect.y + rect.height
            then GC_PR_FGD else GC_BGD }
      bgdModel := bgdModel + 1
      fgdModel := fgdModel + 1 }
  else
    { mask :=
        { mask with elem := fun i j c =>
            if mask.elem i j c = GC_PR_BGD ∨ mask.elem i j c = GC_PR_FGD then
              (if img.elem i j 0 + img.elem i j 1 + img.elem i j 2 > 0 then GC_PR_FGD
               else GC_PR_BGD)
            else mask.elem i j c }
      bgdModel := bgdModel + 1
      fgdModel := fgdModel + 1 }

/-- A toy library: the toy solver, the 15-bit fixed-point gray weighting
`(3735 b + 19235 g + 9798 r + 16384) / 32768`, and a rectangle routine that draws
nothing. -/
def demoLib : Lib Nat :=
  { grabCut := demoGrabCut
    bgr2gray := fun b g r => (3735 * b + 19235 * g + 9798 * r + 16384) / 32768
    rectangle := fun img _ _ _ => img }

/-- A 4 x 4 three-channel image: pixel (i, j) has blue `10 i`, green `10 j`, red `i j`. -/
def demoImage : Mat :=
  { rows := 4, cols := 4, channels := 3,
    elem := fun i j c => if c = 0 then 10 * i else if c = 1 then 10 * j else i * j }

/-- The state right after construction on `demoImage`: no mask, no drag. -/
def demoInit : BgCut Nat :=
  { image_ := demoImage, mask_ := Mat.nil, bg_model_ := 0, fg_model_ := 0,
    start_point_ := none, output_image_path_ := "demo.png.bgcut.png" }

/-- A pre-seed state with a pending drag that started at (10, 10). -/
def demoDrag : BgCut Nat := { demoInit with start_point_ := some { x := 10, y := 10 } }

/-- A post-seed state: the mask has the size of the image, the left two columns are
`GC_BGD`, the third is `GC_PR_FGD` and the fourth `GC_PR_BGD`. -/
def demoSeeded : BgCut Nat :=
  { demoInit with
    mask_ := { rows := 4, cols := 4, channels := 1,
               elem := fun _ j _ => if j < 2 then GC_BGD else if j = 2 then GC_PR_FGD
                                    else GC_PR_BGD } }


/-! ## The toy solver meets the contracts -/

/-- The toy solver sizes the mask like the image. -/
theorem demoLib_initSizesMask : InitSizesMask demoLib := by
  intro img mask rect bg fg
  simp [demoLib, demoGrabCut]

/-- The toy solver keeps the dimensions of the mask when refining. -/
theorem demoLib_evalKeepsSize : EvalKeepsSize demoLib := by
  intro img mask rect bg fg
  simp [demoLib, demoGrabCut, GC_EVAL, GC_INIT_WITH_RECT]

/-- The toy solver keeps definite labels when refining. -/
theorem demoLib_evalKeepsDefinite : EvalKeepsDefinite demoLib := by
  intro img mask rect bg fg i j h
  have h2 : ¬ (mask.elem i j 0 = GC_PR_BGD ∨ mask.elem i j 0 = GC_PR_FGD) := by
    simp only [GC_BGD, GC_FGD, GC_PR_BGD, GC_PR_FGD] at h ⊢
    omega
  simp [demoLib, demoGrabCut, GC_EVAL, GC_INIT_WITH_RECT, h2]

/-! ## Seeding by a rectangle (the release case of `ProcessMouseEvent`) -/

/-- A matrix with at least one row and one column is not empty. -/
theorem empty_of_dims {m : Mat} (hr : 0 < m.rows) (hc : 0 < m.cols) : m.empty = false := by
  simp [Mat.empty]
  omega

/-- C1: in a pre-seed state (mask empty) with a pending drag start, a release whose
rectangle has positive area shows the selection, invokes the solver exactly once, in
`GC_INIT_WITH_RECT` mode with iteration count 1 on that rectangle, stores the mask of the
solver (non-empty when the solver sizes the mask like the non-empty image) and clears the
drag; a release whose rectangle has no positive area invokes nothing, leaves the mask
empty and clears the drag. -/
theorem release_seeds_iff_area_pos (cv : Lib M) (s : BgCut M) (start : Point)
    (x y flags : Int) (hpre : s.mask_.empty = true) (hdrag : s.start_point_ = some start) :
    (0 < (Rect.ofPoints start { x := x, y := y }).area →
      ∃ s1 effs, ProcessMouseEvent cv s EVENT_LBUTTONUP x y flags = Except.ok (s1, effs)
        ∧ effs = [Effect.imshow (cv.rectangle s.image_
                    (Rect.ofPoints start { x := x, y := y }) kSelectedRegionColor 3),
                  Effect.grabCut s.image_ s.mask_ (Rect.ofPoints start { x := x, y := y })
                    s.bg_model_ s.fg_model_ 1 GC_INIT_WITH_RECT]
        ∧ solverCalls effs = 1
        ∧ s1.mask_ = (cv.grabCut s.image_ s.mask_ (Rect.ofPoints start { x := x, y := y })
                        s.bg_model_ s.fg_model_ 1 GC_INIT_WITH_RECT).mask
        ∧ s1.start_point_ = none
        ∧ (InitSizesMask cv → s.image_.empty = false → s1.mask_.empty = false))
    ∧ (¬ 0 < (Rect.ofPoints start { x := x, y := y }).area →
      ∃ s1 effs, ProcessMouseEvent cv s EVENT_LBUTTONUP x y flags = Except.ok (s1, effs)
        ∧ effs = [] ∧ solverCalls effs = 0
        ∧ s1.mask_ = s.mask_ ∧ s1.mask_.empty = true
        ∧ s1.start_point_ = none) := by
  constructor
  · intro harea
    refine ⟨{ s with
                mask_ := (cv.grabCut s.image_ s.mask_ (Rect.ofPoints start { x := x, y := y })
                  s.bg_model_ s.fg_model_ 1 GC_INIT_WITH_RECT).mask
                bg_model_ := (cv.grabCut s.image_ s.mask_
                  (Rect.ofPoints start { x := x, y := y })
                  s.bg_model_ s.fg_model_ 1 GC_INIT_WITH_RECT).bgdModel
                fg_model_ := (cv.grabCut s.image_ s.mask_
                  (Rect.ofPoints start { x := x, y := y })
                  s.bg_model_ s.fg_model_ 1 GC_INIT_WITH_RECT).fgdModel
                start_point_ := none }, _, ?_, rfl, rfl, rfl, rfl, ?_⟩
    · simp [ProcessMouseEvent, EVENT_LBUTTONUP, EVENT_MOUSEMOVE, EVENT_LBUTTONDOWN, hpre,
        hdrag, harea]
    · intro hinit himg
      have h := hinit s.image_ s.mask_ (Rect.ofPoints start { x := x, y := y })
        s.bg_model_ s.fg_model_
      simp only [Mat.empty, Bool.or_eq_false_iff, beq_eq_false_iff_ne, ne_eq] at himg
      apply empty_of_dims
      · show 0 < (cv.grabCut _ _ _ _ _ _ _).mask.rows
        omega
      · show 0 < (cv.grabCut _ _ _ _ _ _ _).mask.cols
        omega
  · intro harea
    refine ⟨{ s with start_point_ := none }, [], ?_, rfl, rfl, rfl, hpre, rfl⟩
    simp [ProcessMouseEvent, EVENT_LBUTTONUP, EVENT_MOUSEMOVE, EVENT_LBUTTONDOWN, hpre,
      hdrag, harea]

/-- Witness for C1: on the demo image, a drag from (10, 10) released at (12, 13) seeds a
trimap with one solver call. -/
theorem release_seeds_iff_area_pos_witness :
    ∃ s1 effs, ProcessMouseEvent demoLib demoDrag EVENT_LBUTTONUP 12 13 0
        = Except.ok (s1, effs)
      ∧ solverCalls effs = 1 ∧ s1.start_point_ = none ∧ s1.mask_.empty = false := by
  obtain ⟨s1, effs, h1, _, h3, _, h5, h6⟩ :=
    (release_seeds_iff_area_pos demoLib demoDrag { x := 10, y := 10 } 12 13 0 rfl rfl).1
      (by decide)
  exact ⟨s1, effs, h1, h3, h5, h6 demoLib_initSizesMask rfl⟩


/-- A rectangle built from two points with the same `x` or the same `y` has area 0. -/
theorem area_ofPoints_eq_zero (p q : Point) (h : p.x = q.x ∨ p.y = q.y) :
    (Rect.ofPoints p q).area = 0 := by
  rcases h with h | h
  · simp [Rect.ofPoints, Rect.area, h, wrapInt32]
  · simp [Rect.ofPoints, Rect.area, h, wrapInt32]

/-- C2, as stated, fails: on the demo image the drag from (10, 10) released up and to the
left at (5, 5) builds the rectangle with corner (5, 5), width 5 and height 5, of area 25;
the release invokes the solver once and leaves a non-empty trimap. -/
theorem release_up_left_is_not_discarded :
    Rect.ofPoints { x := 10, y := 10 } { x := 5, y := 5 }
        = { x := 5, y := 5, width := 5, height := 5 }
      ∧ (Rect.ofPoints { x := 10, y := 10 } { x := 5, y := 5 }).area = 25
      ∧ demoDrag.mask_.empty = true
      ∧ demoDrag.start_point_ = some { x := 10, y := 10 }
      ∧ ∃ s1 effs, ProcessMouseEvent demoLib demoDrag EVENT_LBUTTONUP 5 5 0
            = Except.ok (s1, effs)
          ∧ solverCalls effs = 1 ∧ s1.mask_.empty = false := by
  refine ⟨by decide, by decide, rfl, rfl, ?_⟩
  exact ⟨_, _, rfl, rfl, rfl⟩

/-- C2 amended: in a pre-seed state with drag start (10, 10), a release at (10, 10), and
any release in the column or the row of the start, is discarded: no solver call, the
mask stays empty, the drag is cleared.  A release up and to the left at (5, 5) is not
discarded: the rectangle is normalised to corner (5, 5), width 5, height 5, and the solver
is invoked exactly once, in `GC_INIT_WITH_RECT` mode with iteration count 1. -/
theorem release_from_10_10 (cv : Lib M) (s : BgCut M) (flags : Int)
    (hpre : s.mask_.empty = true) (hdrag : s.start_point_ = some { x := 10, y := 10 }) :
    (∀ x y : Int, x = 10 ∨ y = 10 →
      ProcessMouseEvent cv s EVENT_LBUTTONUP x y flags
        = Except.ok ({ s with start_point_ := none }, []))
    ∧ ∃ s1 effs, ProcessMouseEvent cv s EVENT_LBUTTONUP 5 5 flags = Except.ok (s1, effs)
        ∧ effs = [Effect.imshow (cv.rectangle s.image_
                    { x := 5, y := 5, width := 5, height := 5 } kSelectedRegionColor 3),
                  Effect.grabCut s.image_ s.mask_
                    { x := 5, y := 5, width := 5, height := 5 }
                    s.bg_model_ s.fg_model_ 1 GC_INIT_WITH_RECT]
        ∧ solverCalls effs = 1
        ∧ s1.mask_ = (cv.grabCut s.image_ s.mask_
                        { x := 5, y := 5, width := 5, height := 5 }
                        s.bg_model_ s.fg_model_ 1 GC_INIT_WITH_RECT).mask
        ∧ s1.start_point_ = none := by
  constructor
  · intro x y hxy
    have harea : (Rect.ofPoints { x := 10, y := 10 } { x := x, y := y }).area = 0 :=
      area_ofPoints_eq_zero _ _ (by rcases hxy with h | h <;> simp [h])
    simp [ProcessMouseEvent, EVENT_LBUTTONUP, EVENT_MOUSEMOVE, EVENT_LBUTTONDOWN, hpre,
      hdrag, harea]
  · have hrect : Rect.ofPoints { x := 10, y := 10 } { x := 5, y := 5 }
        = { x := 5, y := 5, width := 5, height := 5 } := by decide
    have harea : (0 : Int) < ({ x := 5, y := 5, width := 5, height := 5 } : Rect).area := by
      decide
    refine ⟨{ s with
                mask_ := (cv.grabCut s.image_ s.mask_
                  { x := 5, y := 5, width := 5, height := 5 }
                  s.bg_model_ s.fg_model_ 1 GC_INIT_WITH_RECT).mask
                bg_model_ := (cv.grabCut s.image_ s.mask_
                  { x := 5, y := 5, width := 5, height := 5 }
                  s.bg_model_ s.fg_model_ 1 GC_INIT_WITH_RECT).bgdModel
                fg_model_ := (cv.grabCut s.image_ s.mask_
                  { x := 5, y := 5, width := 5, height := 5 }
                  s.bg_model_ s.fg_model_ 1 GC_INIT_WITH_RECT).fgdModel
                start_point_ := none }, _, ?_, rfl, rfl, rfl, rfl⟩
    simp [ProcessMouseEvent, EVENT_LBUTTONUP, EVENT_MOUSEMOVE, EVENT_LBUTTONDOWN, hpre,
      hdrag, hrect, harea]

/-- Witness for the amended C2 on the demo state. -/
theorem release_from_10_10_witness :
    ProcessMouseEvent demoLib demoDrag EVENT_LBUTTONUP 10 10 0
        = Except.ok ({ demoDrag with start_point_ := none }, [])
      ∧ ∃ s1 effs, ProcessMouseEvent demoLib demoDrag EVENT_LBUTTONUP 5 5 0
            = Except.ok (s1, effs) ∧ solverCalls effs = 1 :=
  ⟨(release_from_10_10 demoLib demoDrag 0 rfl rfl).1 10 10 (Or.inl rfl),
   (release_from_10_10 demoLib demoDrag 0 rfl rfl).2.elim fun s1 h =>
     h.elim fun effs h => ⟨s1, effs, h.1, h.2.2.1⟩⟩


/-! ## The key handler -/

/-- Solver invocations of two effect lists in sequence add up. -/
theorem solverCalls_append (a b : List (Effect M)) :
    solverCalls (a ++ b) = solverCalls a + solverCalls b := by
  simp [solverCalls, List.countP_append]

/-- The outcome of `n` on a non-empty mask. -/
theorem processKeyPress_n_nonempty (cv : Lib M) (s : BgCut M)
    (h : s.mask_.empty = false) :
    ProcessKeyPress cv s 110 =
      { should_exit := false
        state := { s with
          mask_ := (cv.grabCut s.image_ s.mask_ Rect.zero s.bg_model_ s.fg_model_ 1
            GC_EVAL).mask
          bg_model_ := (cv.grabCut s.image_ s.mask_ Rect.zero s.bg_model_ s.fg_model_ 1
            GC_EVAL).bgdModel
          fg_model_ := (cv.grabCut s.image_ s.mask_ Rect.zero s.bg_model_ s.fg_model_ 1
            GC_EVAL).fgdModel }
        effects :=
          Effect.grabCut s.image_ s.mask_ Rect.zero s.bg_model_ s.fg_model_ 1 GC_EVAL
            :: DrawMaskedImage { s with
                mask_ := (cv.grabCut s.image_ s.mask_ Rect.zero s.bg_model_ s.fg_model_ 1
                  GC_EVAL).mask
                bg_model_ := (cv.grabCut s.image_ s.mask_ Rect.zero s.bg_model_
                  s.fg_model_ 1 GC_EVAL).bgdModel
                fg_model_ := (cv.grabCut s.image_ s.mask_ Rect.zero s.bg_model_
                  s.fg_model_ 1 GC_EVAL).fgdModel } } := by
  simp [ProcessKeyPress, h]

/-- The outcome of `n` on an empty mask. -/
theorem processKeyPress_n_empty (cv : Lib M) (s : BgCut M) (h : s.mask_.empty = true) :
    ProcessKeyPress cv s 110 = { should_exit := false, state := s, effects := [] } := by
  simp [ProcessKeyPress, h]

/-- Pressing `n` `k` times on a non-empty mask, with a solver that keeps the dimensions
of the mask: the run ends normally after exactly `k` solver invocations, the mask keeps
its dimensions, and if the solver keeps definite labels, so does the run. -/
theorem run_n_presses (cv : Lib M) (hsize : EvalKeepsSize cv) (k : Nat) :
    ∀ s : BgCut M, s.mask_.empty = false →
      ∃ r, Run cv s (List.replicate k (Event.key 110)) = Except.ok r
        ∧ r.exited = false ∧ solverCalls r.effects = k
        ∧ r.state.mask_.rows = s.mask_.rows ∧ r.state.mask_.cols = s.mask_.cols
        ∧ (EvalKeepsDefinite cv → ∀ i j,
            s.mask_.elem i j 0 = GC_BGD ∨ s.mask_.elem i j 0 = GC_FGD →
              r.state.mask_.elem i j 0 = s.mask_.elem i j 0) := by
  induction k with
  | zero => intro s _; exact ⟨_, rfl, rfl, rfl, rfl, rfl, fun _ _ _ _ => rfl⟩
  | succ k ih =>
    intro s hs
    have hk := hsize s.image_ s.mask_ Rect.zero s.bg_model_ s.fg_model_
    have hdim : s.mask_.rows ≠ 0 ∧ s.mask_.cols ≠ 0 := by
      simpa [Mat.empty] using hs
    have hs1 : (ProcessKeyPress cv s 110).state.mask_.empty = false := by
      rw [processKeyPress_n_nonempty cv s hs]
      apply empty_of_dims
      · show 0 < (cv.grabCut _ _ _ _ _ _ _).mask.rows
        omega
      · show 0 < (cv.grabCut _ _ _ _ _ _ _).mask.cols
        omega
    obtain ⟨r, hr, hex, hcalls, hrows, hcols, hkeep⟩ := ih _ hs1
    refine ⟨{ r with effects := (ProcessKeyPress cv s 110).effects ++ r.effects }, ?_, hex,
      ?_, ?_, ?_, ?_⟩
    · have hne : (ProcessKeyPress cv s 110).should_exit = false := by
        rw [processKeyPress_n_nonempty cv s hs]
      simp only [List.replicate_succ, Run, hne, hr]
      simp
    · show solverCalls ((ProcessKeyPress cv s 110).effects ++ r.effects) = k + 1
      rw [solverCalls_append, hcalls, processKeyPress_n_nonempty cv s hs]
      simp [solverCalls, DrawMaskedImage, MaskImageAndThen, Effect.isGrabCut]
      omega
    · show r.state.mask_.rows = s.mask_.rows
      rw [hrows, processKeyPress_n_nonempty cv s hs]
      exact hk.1
    · show r.state.mask_.cols = s.mask_.cols
      rw [hcols, processKeyPress_n_nonempty cv s hs]
      exact hk.2
    · intro hdef i j hij
      show r.state.mask_.elem i j 0 = s.mask_.elem i j 0
      have h1 : (ProcessKeyPress cv s 110).state.mask_.elem i j 0 = s.mask_.elem i j 0 := by
        rw [processKeyPress_n_nonempty cv s hs]
        exact hdef s.image_ s.mask_ Rect.zero s.bg_model_ s.fg_model_ i j hij
      rw [hkeep hdef i j (by rw [h1]; exact hij), h1]

/-- C3: pressing `n` on a non-empty mask invokes the solver exactly once, in `GC_EVAL`
mode with iteration count 1 on the current mask and colour models, stores its results
and shows the composite; on an empty mask it invokes nothing and leaves the whole state
unchanged; and with a solver that keeps the dimensions of the mask, `k` presses of `n`
on a non-empty mask give exactly `k` solver invocations. -/
theorem press_n_refines_once (cv : Lib M) (s : BgCut M) :
    (s.mask_.empty = false →
      (ProcessKeyPress cv s 110).effects
          = Effect.grabCut s.image_ s.mask_ Rect.zero s.bg_model_ s.fg_model_ 1 GC_EVAL
              :: DrawMaskedImage (ProcessKeyPress cv s 110).state
        ∧ solverCalls (ProcessKeyPress cv s 110).effects = 1
        ∧ (ProcessKeyPress cv s 110).state.mask_
            = (cv.grabCut s.image_ s.mask_ Rect.zero s.bg_model_ s.fg_model_ 1 GC_EVAL).mask
        ∧ (ProcessKeyPress cv s 110).state.bg_model_
            = (cv.grabCut s.image_ s.mask_ Rect.zero s.bg_model_ s.fg_model_ 1
                GC_EVAL).bgdModel
        ∧ (ProcessKeyPress cv s 110).state.fg_model_
            = (cv.grabCut s.image_ s.mask_ Rect.zero s.bg_model_ s.fg_model_ 1
                GC_EVAL).fgdModel)
    ∧ (s.mask_.empty = true →
        (ProcessKeyPress cv s 110).effects = []
          ∧ solverCalls (ProcessKeyPress cv s 110).effects = 0
          ∧ (ProcessKeyPress cv s 110).state = s)
    ∧ (EvalKeepsSize cv → s.mask_.empty = false → ∀ k : Nat,
        ∃ r, Run cv s (List.replicate k (Event.key 110)) = Except.ok r
          ∧ solverCalls r.effects = k) := by
  refine ⟨?_, ?_, ?_⟩
  · intro h
    rw [processKeyPress_n_nonempty cv s h]
    exact ⟨rfl, rfl, rfl, rfl, rfl⟩
  · intro h
    rw [processKeyPress_n_empty cv s h]
    exact ⟨rfl, rfl, rfl⟩
  · intro hsize h k
    obtain ⟨r, hr, _, hcalls, _⟩ := run_n_presses cv hsize k s h
    exact ⟨r, hr, hcalls⟩

/-- Witness for C3: three presses of `n` on the seeded demo state give three solver
invocations. -/
theorem press_n_refines_once_witness :
    ∃ r, Run demoLib demoSeeded [Event.key 110, Event.key 110, Event.key 110] = Except.ok r
      ∧ solverCalls r.effects = 3 :=
  (press_n_refines_once demoLib demoSeeded).2.2 demoLib_evalKeepsSize rfl 3

/-- C4: after `c` the mask is empty, whatever it was; the following `n` invokes no solver
and returns the state `c` left; the key sequence `c`, `n` has the outcome of `c` alone. -/
theorem press_c_then_n (cv : Lib M) (s : BgCut M) :
    (ProcessKeyPress cv s 99).state.mask_.empty = true
    ∧ (ProcessKeyPress cv s 99).should_exit = false
    ∧ ProcessKeyPress cv (ProcessKeyPress cv s 99).state 110
        = { should_exit := false, state := (ProcessKeyPress cv s 99).state, effects := [] }
    ∧ Run cv s [Event.key 99, Event.key 110] = Run cv s [Event.key 99] := by
  have h1 : (ProcessKeyPress cv s 99).state.mask_.empty = true := rfl
  have h2 : (ProcessKeyPress cv s 99).should_exit = false := rfl
  have h3 := processKeyPress_n_empty cv _ h1
  refine ⟨h1, h2, h3, ?_⟩
  simp [Run, h2, h3]

/-- C9: `ProcessKeyPress` returns true exactly for the key `q` (code 113), so a run
of the loop on a single key exits exactly for `q`; for every key other than `c`, `s`,
`n`, `q` the state is unchanged and nothing is invoked. -/
theorem should_exit_iff_q (cv : Lib M) (s : BgCut M) (key_pressed : Int) :
    ((ProcessKeyPress cv s key_pressed).should_exit = true ↔ key_pressed = 113)
    ∧ (∃ r, Run cv s [Event.key key_pressed] = Except.ok r
        ∧ (r.exited = true ↔ key_pressed = 113))
    ∧ (key_pressed ≠ 99 → key_pressed ≠ 115 → key_pressed ≠ 110 → key_pressed ≠ 113 →
        ProcessKeyPress cv s key_pressed
          = { should_exit := false, state := s, effects := [] }) := by
  have h1 : (ProcessKeyPress cv s key_pressed).should_exit = true ↔ key_pressed = 113 := by
    unfold ProcessKeyPress
    split_ifs with ha hb hc hd he <;> simp_all
  refine ⟨h1, ?_, ?_⟩
  · by_cases hq : (ProcessKeyPress cv s key_pressed).should_exit = true
    · exact ⟨_, by simp only [Run, hq, if_true]; rfl, by simpa using h1.mp hq⟩
    · have hq2 : (ProcessKeyPress cv s key_pressed).should_exit = false := by simpa using hq
      refine ⟨{ exited := false, state := (ProcessKeyPress cv s key_pressed).state,
                effects := (ProcessKeyPress cv s key_pressed).effects ++ [] }, ?_, ?_⟩
      · simp [Run, hq2]
      · have : key_pressed ≠ 113 := fun h => hq (h1.mpr h)
        simp [this]
  · intro ha hb hc hd
    simp [ProcessKeyPress, ha, hb, hc, hd]

/-- Witness for C9: the codes of `c`, `s`, `n` and the no-key code -1 do not end the
loop, `q` does, and an unbound key (`x`, code 120) leaves the demo state as it is. -/
theorem should_exit_iff_q_witness :
    (ProcessKeyPress demoLib demoSeeded 99).should_exit = false
      ∧ (ProcessKeyPress demoLib demoSeeded 115).should_exit = false
      ∧ (ProcessKeyPress demoLib demoSeeded 110).should_exit = false
      ∧ (ProcessKeyPress demoLib demoSeeded (-1)).should_exit = false
      ∧ (ProcessKeyPress demoLib demoSeeded 113).should_exit = true
      ∧ ProcessKeyPress demoLib demoSeeded 120
          = { should_exit := false, state := demoSeeded, effects := [] } :=
  ⟨rfl, rfl, rfl, rfl, rfl,
   (should_exit_iff_q demoLib demoSeeded 120).2.2 (by decide) (by decide) (by decide)
     (by decide)⟩


/-! ## Painting strokes -/

/-- The pixels `circle1` paints are those of the closed disk of radius 1. -/
theorem circle1_shape_iff (x y : Int) (i j : Nat) :
    (((i : Int) = y ∧ x - 1 ≤ (j : Int) ∧ (j : Int) ≤ x + 1)
        ∨ ((j : Int) = x ∧ ((i : Int) = y - 1 ∨ (i : Int) = y + 1)))
      ↔ inDisk1 x y i j := by
  unfold inDisk1
  obtain ⟨a, ha⟩ : ∃ a : Int, (j : Int) = x + a := ⟨(j : Int) - x, by omega⟩
  obtain ⟨b, hb⟩ : ∃ b : Int, (i : Int) = y + b := ⟨(i : Int) - y, by omega⟩
  rw [ha, hb]
  have e1 : x + a - x = a := by omega
  have e2 : y + b - y = b := by omega
  rw [e1, e2]
  constructor
  · rintro (⟨h1, h2, h3⟩ | ⟨h1, h2 | h2⟩)
    · have hb0 : b = 0 := by omega
      have ha1 : -1 ≤ a ∧ a ≤ 1 := by omega
      subst hb0
      nlinarith [ha1.1, ha1.2]
    · have ha0 : a = 0 := by omega
      have hb1 : b = -1 := by omega
      subst ha0 hb1
      norm_num
    · have ha0 : a = 0 := by omega
      have hb1 : b = 1 := by omega
      subst ha0 hb1
      norm_num
  · intro h
    have ha1 : -1 ≤ a ∧ a ≤ 1 := by constructor <;> nlinarith [sq_nonneg b, sq_nonneg a]
    have hb1 : -1 ≤ b ∧ b ≤ 1 := by constructor <;> nlinarith [sq_nonneg b, sq_nonneg a]
    obtain ⟨ha2, ha3⟩ := ha1
    obtain ⟨hb2, hb3⟩ := hb1
    interval_cases a <;> interval_cases b <;> simp at h ⊢ <;> omega

/-- Elements of a mask after `cv::circle(mask, (x, y), 1, color, -1)`. -/
theorem circle1_elem (mask : Mat) (x y : Int) (color : Scalar) (i j c : Nat) :
    (circle1 mask { x := x, y := y } color).elem i j c
      = if inDisk1 x y i j then color.get c else mask.elem i j c := by
  simp only [circle1, circle1_shape_iff]

/-- What a stroke does to the mask: under ctrl the radius-1 disk becomes `GC_FGD`,
otherwise under shift it becomes `GC_BGD`, otherwise nothing changes; the dimensions
stay and every element outside the disk stays. -/
theorem paintStroke_spec (mask : Mat) (x y flags : Int) :
    (paintStroke mask x y flags).rows = mask.rows
    ∧ (paintStroke mask x y flags).cols = mask.cols
    ∧ (paintStroke mask x y flags).channels = mask.channels
    ∧ (ctrlKey flags = true → ∀ i j,
        (paintStroke mask x y flags).elem i j 0
          = if inDisk1 x y i j then GC_FGD else mask.elem i j 0)
    ∧ (ctrlKey flags = false → shiftKey flags = true → ∀ i j,
        (paintStroke mask x y flags).elem i j 0
          = if inDisk1 x y i j then GC_BGD else mask.elem i j 0)
    ∧ (ctrlKey flags = false → shiftKey flags = false → paintStroke mask x y flags = mask)
    ∧ (∀ i j c, ¬ inDisk1 x y i j →
        (paintStroke mask x y flags).elem i j c = mask.elem i j c) := by
  unfold paintStroke
  refine ⟨?_, ?_, ?_, ?_, ?_, ?_, ?_⟩
  · split_ifs <;> rfl
  · split_ifs <;> rfl
  · split_ifs <;> rfl
  · intro h i j
    rw [if_pos h, circle1_elem]
    rfl
  · intro h1 h2 i j
    rw [if_neg (by simp [h1]), if_pos h2, circle1_elem]
    rfl
  · intro h1 h2
    rw [if_neg (by simp [h1]), if_neg (by simp [h2])]
  · intro i j c hd
    split_ifs
    · rw [circle1_elem, if_neg hd]
    · rw [circle1_elem, if_neg hd]
    · rfl

/-- C8: once a trimap exists, a release at `(x, y)`, and a move to `(x, y)` while a drag
is active, replace the mask by the painted mask and invoke nothing (the release also
clears the drag).  The painted mask has the dimensions of the old one; under ctrl the
pixels of the radius-1 disk around `(x, y)` are `GC_FGD`, otherwise under shift they are
`GC_BGD`, otherwise the mask is the old one; every pixel outside the disk keeps its
label.  A move with no drag active or with no trimap changes nothing. -/
theorem paint_event_labels_disk (cv : Lib M) (s : BgCut M) (x y flags : Int) :
    (s.mask_.empty = false →
      ProcessMouseEvent cv s EVENT_LBUTTONUP x y flags
        = Except.ok ({ s with mask_ := paintStroke s.mask_ x y flags,
                              start_point_ := none }, []))
    ∧ (s.mask_.empty = false → s.start_point_.isSome = true →
      ProcessMouseEvent cv s EVENT_MOUSEMOVE x y flags
        = Except.ok ({ s with mask_ := paintStroke s.mask_ x y flags }, []))
    ∧ (s.mask_.empty = true ∨ s.start_point_ = none →
      ProcessMouseEvent cv s EVENT_MOUSEMOVE x y flags = Except.ok (s, []))
    ∧ (paintStroke s.mask_ x y flags).rows = s.mask_.rows
    ∧ (paintStroke s.mask_ x y flags).cols = s.mask_.cols
    ∧ (ctrlKey flags = true → ∀ i j,
        (paintStroke s.mask_ x y flags).elem i j 0
          = if inDisk1 x y i j then GC_FGD else s.mask_.elem i j 0)
    ∧ (ctrlKey flags = false → shiftKey flags = true → ∀ i j,
        (paintStroke s.mask_ x y flags).elem i j 0
          = if inDisk1 x y i j then GC_BGD else s.mask_.elem i j 0)
    ∧ (ctrlKey flags = false → shiftKey flags = false →
        paintStroke s.mask_ x y flags = s.mask_)
    ∧ (∀ i j c, ¬ inDisk1 x y i j →
        (paintStroke s.mask_ x y flags).elem i j c = s.mask_.elem i j c) := by
  obtain ⟨h1, h2, _, h4, h5, h6, h7⟩ := paintStroke_spec s.mask_ x y flags
  refine ⟨?_, ?_, ?_, h1, h2, h4, h5, h6, h7⟩
  · intro hne
    simp [ProcessMouseEvent, EVENT_LBUTTONUP, EVENT_MOUSEMOVE, EVENT_LBUTTONDOWN, hne]
  · intro hne hdrag
    simp [ProcessMouseEvent, EVENT_MOUSEMOVE, hne, hdrag]
  · intro h
    rcases h with h | h
    · simp [ProcessMouseEvent, EVENT_MOUSEMOVE, h]
    · simp [ProcessMouseEvent, EVENT_MOUSEMOVE, h]

/-- Witness for C8: on the seeded demo state a ctrl-release (flags 8) at column 3, row 1
labels (1, 3), (1, 2) and (0, 3) `GC_FGD`, and leaves (0, 0) `GC_BGD`; a shift-release
(flags 16) at the same point labels (1, 3) `GC_BGD`. -/
theorem paint_event_labels_disk_witness :
    (paintStroke demoSeeded.mask_ 3 1 8).elem 1 3 0 = GC_FGD
      ∧ (paintStroke demoSeeded.mask_ 3 1 8).elem 1 2 0 = GC_FGD
      ∧ (paintStroke demoSeeded.mask_ 3 1 8).elem 0 3 0 = GC_FGD
      ∧ (paintStroke demoSeeded.mask_ 3 1 8).elem 0 0 0 = GC_BGD
      ∧ (paintStroke demoSeeded.mask_ 3 1 16).elem 1 3 0 = GC_BGD :=
  ⟨((paint_event_labels_disk demoLib demoSeeded 3 1 8).2.2.2.2.2.1 (by decide) 1 3).trans
      (by decide),
   by decide, by decide, by decide, by decide⟩

/-! ## Definite labels survive refinement -/

/-- C5: with a solver that, in `GC_EVAL` mode, keeps the dimensions of the mask and only
rewrites probable labels, every pixel of a non-empty mask labelled `GC_BGD` or `GC_FGD`
keeps that label through one press of `n` and through any number of presses; in
particular a pixel of the mask painted `GC_FGD` by a ctrl-release is still `GC_FGD`
after any number of presses of `n`. -/
theorem refine_keeps_definite (cv : Lib M) (hsize : EvalKeepsSize cv)
    (hdef : EvalKeepsDefinite cv) (s : BgCut M) (hne : s.mask_.empty = false) :
    (∀ i j, s.mask_.elem i j 0 = GC_BGD ∨ s.mask_.elem i j 0 = GC_FGD →
      (ProcessKeyPress cv s 110).state.mask_.elem i j 0 = s.mask_.elem i j 0)
    ∧ (∀ k : Nat, ∃ r, Run cv s (List.replicate k (Event.key 110)) = Except.ok r
        ∧ r.state.mask_.rows = s.mask_.rows ∧ r.state.mask_.cols = s.mask_.cols
        ∧ ∀ i j, s.mask_.elem i j 0 = GC_BGD ∨ s.mask_.elem i j 0 = GC_FGD →
            r.state.mask_.elem i j 0 = s.mask_.elem i j 0)
    ∧ (∀ (x y flags : Int) (k i j : Nat), ctrlKey flags = true → inDisk1 x y i j →
        i < s.mask_.rows → j < s.mask_.cols →
        ∃ r, Run cv s (Event.mouse EVENT_LBUTTONUP x y flags
                        :: List.replicate k (Event.key 110)) = Except.ok r
          ∧ r.state.mask_.rows = s.mask_.rows ∧ r.state.mask_.cols = s.mask_.cols
          ∧ r.state.mask_.elem i j 0 = GC_FGD) := by
  refine ⟨?_, ?_, ?_⟩
  · intro i j hij
    rw [processKeyPress_n_nonempty cv s hne]
    exact hdef s.image_ s.mask_ Rect.zero s.bg_model_ s.fg_model_ i j hij
  · intro k
    obtain ⟨r, hr, _, _, hrows, hcols, hkeep⟩ := run_n_presses cv hsize k s hne
    exact ⟨r, hr, hrows, hcols, hkeep hdef⟩
  · intro x y flags k i j hctrl hdisk _ _
    obtain ⟨p1, p2, _, p4, _⟩ := paintStroke_spec s.mask_ x y flags
    have hne1 : (paintStroke s.mask_ x y flags).empty = false := by
      have hdim : s.mask_.rows ≠ 0 ∧ s.mask_.cols ≠ 0 := by simpa [Mat.empty] using hne
      apply empty_of_dims <;> omega
    have hpix : (paintStroke s.mask_ x y flags).elem i j 0 = GC_FGD := by
      rw [p4 hctrl i j, if_pos hdisk]
    obtain ⟨r, hr, _, _, hrows, hcols, hkeep⟩ :=
      run_n_presses cv hsize k
        { s with mask_ := paintStroke s.mask_ x y flags, start_point_ := none } hne1
    refine ⟨r, ?_, hrows.trans p1, hcols.trans p2, ?_⟩
    · simp [Run, ProcessMouseEvent, EVENT_LBUTTONUP, EVENT_MOUSEMOVE, EVENT_LBUTTONDOWN, hne,
        hr]
    · exact (hkeep hdef i j (Or.inr hpix)).trans hpix

/-- Witness for C5: on the seeded demo state, the pixel in row 1, column 3 painted by a
ctrl-release at (3, 1) is still `GC_FGD` after three presses of `n`. -/
theorem refine_keeps_definite_witness :
    ∃ r, Run demoLib demoSeeded
          [Event.mouse EVENT_LBUTTONUP 3 1 8, Event.key 110, Event.key 110, Event.key 110]
          = Except.ok r
      ∧ r.state.mask_.elem 1 3 0 = GC_FGD :=
  ((refine_keeps_definite demoLib demoLib_evalKeepsSize demoLib_evalKeepsDefinite demoSeeded
      rfl).2.2 3 1 8 3 1 3 (by decide) (by decide) (by decide) (by decide)).elim
    fun r h => ⟨r, h.1, h.2.2.2⟩

/-! ## The composite and the export -/

/-- Elements of the masked image when the mask is not empty. -/
theorem composite_elem (s : BgCut M) (hne : s.mask_.empty = false) (i j c : Nat) :
    (s.MaskImageAndThen id).elem i j c
      = if s.mask_.elem i j 0 &&& 1 = 1 then s.image_.elem i j c else 0 := by
  have hne2 : (s.mask_.bitAnd { v0 := 1 }).empty = false := hne
  have hmod : s.mask_.elem i j 0 &&& 1 = s.mask_.elem i j 0 % 2 := Nat.and_one_is_mod _
  simp only [MaskImageAndThen, Mat.copyTo, hne2, id]
  simp only [Mat.bitAnd, Scalar.get, hmod]
  rcases Nat.mod_two_eq_zero_or_one (s.mask_.elem i j 0) with h | h <;> simp [h]

/-- The masked image has the size and the channels of the image. -/
theorem composite_dims (s : BgCut M) :
    (s.MaskImageAndThen id).rows = s.image_.rows
    ∧ (s.MaskImageAndThen id).cols = s.image_.cols
    ∧ (s.MaskImageAndThen id).channels = s.image_.channels := by
  simp only [MaskImageAndThen, Mat.copyTo, id]
  split_ifs <;> exact ⟨rfl, rfl, rfl⟩

/-- For a GrabCut class, the lowest bit is set exactly for the two foreground classes. -/
theorem low_bit_iff_foreground (l : Nat) (hl : l ≤ 3) :
    l &&& 1 = 1 ↔ l = GC_FGD ∨ l = GC_PR_FGD := by
  rw [Nat.and_one_is_mod]
  simp only [GC_FGD, GC_PR_FGD]
  omega

/-- C6: the composite is the function `MaskImageAndThen id` of the image and the mask
alone.  It has the size and channels of the image; at every pixel of the mask it holds
the source colour when the lowest bit of the label is set and zero otherwise, and for a
label that is a GrabCut class that is exactly when the label is `GC_FGD` or `GC_PR_FGD`;
with an empty mask it is the image itself.  Drawing it shows exactly this raster, and
pressing `s` twice writes the same raster twice and leaves the state as it was. -/
theorem composite_keeps_foreground (cv : Lib M) (s : BgCut M) :
    (s.MaskImageAndThen id).rows = s.image_.rows
    ∧ (s.MaskImageAndThen id).cols = s.image_.cols
    ∧ (s.MaskImageAndThen id).channels = s.image_.channels
    ∧ (∀ i j c, i < s.mask_.rows → j < s.mask_.cols →
        (s.MaskImageAndThen id).elem i j c
          = if s.mask_.elem i j 0 &&& 1 = 1 then s.image_.elem i j c else 0)
    ∧ (∀ i j c, i < s.mask_.rows → j < s.mask_.cols → s.mask_.elem i j 0 ≤ 3 →
        (s.MaskImageAndThen id).elem i j c
          = if s.mask_.elem i j 0 = GC_FGD ∨ s.mask_.elem i j 0 = GC_PR_FGD
            then s.image_.elem i j c else 0)
    ∧ (s.mask_.empty = true → s.MaskImageAndThen id = s.image_)
    ∧ (∀ s2 : BgCut M, s2.image_ = s.image_ → s2.mask_ = s.mask_ →
        s2.MaskImageAndThen id = s.MaskImageAndThen id)
    ∧ s.DrawMaskedImage = [Effect.imshow (s.MaskImageAndThen id)]
    ∧ (ProcessKeyPress cv s 115).state = s
    ∧ ProcessKeyPress cv (ProcessKeyPress cv s 115).state 115 = ProcessKeyPress cv s 115 := by
  have hne : ∀ i j, i < s.mask_.rows → j < s.mask_.cols → s.mask_.empty = false := by
    intro i j hi hj
    apply empty_of_dims <;> omega
  refine ⟨(composite_dims s).1, (composite_dims s).2.1, (composite_dims s).2.2, ?_, ?_, ?_,
    ?_, rfl, rfl, rfl⟩
  · intro i j c hi hj
    exact composite_elem s (hne i j hi hj) i j c
  · intro i j c hi hj hl
    rw [composite_elem s (hne i j hi hj) i j c]
    simp only [low_bit_iff_foreground _ hl]
  · intro he
    have he2 : (s.mask_.bitAnd { v0 := 1 }).empty = true := he
    simp [MaskImageAndThen, Mat.copyTo, he2]
  · intro s2 h1 h2
    simp only [MaskImageAndThen, h1, h2]

/-- Witness for C6: on the seeded demo state the pixel in row 1, column 2 (label
`GC_PR_FGD`) keeps its green value 20 and the pixel in row 1, column 3 (label
`GC_PR_BGD`) is zeroed. -/
theorem composite_keeps_foreground_witness :
    (demoSeeded.MaskImageAndThen id).elem 1 2 1 = 20
      ∧ (demoSeeded.MaskImageAndThen id).elem 1 3 1 = 0 :=
  ⟨((composite_keeps_foreground demoLib demoSeeded).2.2.2.2.1 1 2 1 (by decide) (by decide)
      (by decide)).trans (by decide),
   by decide⟩

/-- The three single-channel matrices `cv::split` gives for a three-channel matrix. -/
theorem split_three (m : Mat) (h3 : m.channels = 3) :
    split m
      = [{ rows := m.rows, cols := m.cols, channels := 1, elem := fun i j _ => m.elem i j 0 },
         { rows := m.rows, cols := m.cols, channels := 1, elem := fun i j _ => m.elem i j 1 },
         { rows := m.rows, cols := m.cols, channels := 1, elem := fun i j _ => m.elem i j 2 }]
      := by
  simp [split, h3, List.range_succ]

/-- Size of the raster the export merges, for a three-channel image. -/
theorem export_dims (m alpha : Mat) (h3 : m.channels = 3) :
    (merge (split m ++ [alpha])).channels = 4
      ∧ (merge (split m ++ [alpha])).rows = m.rows
      ∧ (merge (split m ++ [alpha])).cols = m.cols := by
  rw [split_three m h3]
  exact ⟨rfl, rfl, rfl⟩

/-- The channels handed to `cv::merge` by the export, for a three-channel image. -/
theorem export_channel (m alpha : Mat) (h3 : m.channels = 3) (i j c : Nat) :
    (merge (split m ++ [alpha])).elem i j c
      = if c < 3 then m.elem i j c else if c = 3 then alpha.elem i j 0 else 0 := by
  rw [split_three m h3]
  match c with
  | 0 => rfl
  | 1 => rfl
  | 2 => rfl
  | 3 => rfl
  | c + 4 =>
    have h1 : ¬ (c + 4 < 3) := by omega
    have h2 : ¬ (c + 4 = 3) := by omega
    rw [if_neg h1, if_neg h2]
    rfl

/-- C7: for a three-channel image and any mask, `s` leaves the state as it is and writes
one raster to the output path.  The raster has four channels and the size of the image;
its first three channels are the composite; its fourth channel is 0 or 255 at every
pixel, and is 255 exactly where the gray level of the composite pixel is greater than 0;
hence, the gray level of black being 0, every pixel of the mask whose label has the
lowest bit clear has alpha 0. -/
theorem export_alpha_binary (cv : Lib M) (s : BgCut M) (hch : s.image_.channels = 3) :
    ∃ out : Mat,
      ProcessKeyPress cv s 115
          = { should_exit := false, state := s,
              effects := [Effect.imwrite s.output_image_path_ out] }
      ∧ out.channels = 4 ∧ out.rows = s.image_.rows ∧ out.cols = s.image_.cols
      ∧ (∀ i j c, c < 3 → out.elem i j c = (s.MaskImageAndThen id).elem i j c)
      ∧ (∀ i j, out.elem i j 3 = 0 ∨ out.elem i j 3 = 255)
      ∧ (∀ i j, out.elem i j 3 = 255 ↔
          0 < cv.bgr2gray ((s.MaskImageAndThen id).elem i j 0)
                ((s.MaskImageAndThen id).elem i j 1) ((s.MaskImageAndThen id).elem i j 2))
      ∧ (cv.bgr2gray 0 0 0 = 0 → ∀ i j, i < s.mask_.rows → j < s.mask_.cols →
          ¬ (s.mask_.elem i j 0 &&& 1 = 1) → out.elem i j 3 = 0) := by
  have hch2 : (s.MaskImageAndThen id).channels = 3 := (composite_dims s).2.2.trans hch
  have helem := export_channel (s.MaskImageAndThen id)
    (threshold (cvtColorBGR2GRAY cv (s.MaskImageAndThen id)) 0 255) hch2
  have halpha : ∀ i j,
      (merge (split (s.MaskImageAndThen id)
          ++ [threshold (cvtColorBGR2GRAY cv (s.MaskImageAndThen id)) 0 255])).elem i j 3
        = if 0 < cv.bgr2gray ((s.MaskImageAndThen id).elem i j 0)
              ((s.MaskImageAndThen id).elem i j 1) ((s.MaskImageAndThen id).elem i j 2)
          then 255 else 0 := by
    intro i j
    rw [helem]
    simp [threshold, cvtColorBGR2GRAY]
  refine ⟨merge (split (s.MaskImageAndThen id)
      ++ [threshold (cvtColorBGR2GRAY cv (s.MaskImageAndThen id)) 0 255]), rfl, ?_, ?_, ?_,
    ?_, ?_, ?_, ?_⟩
  · exact (export_dims _ _ hch2).1
  · exact (export_dims _ _ hch2).2.1.trans (composite_dims s).1
  · exact (export_dims _ _ hch2).2.2.trans (composite_dims s).2.1
  · intro i j c hc
    rw [helem, if_pos hc]
  · intro i j
    rw [halpha]
    split_ifs <;> simp
  · intro i j
    rw [halpha]
    split_ifs with h <;> simp [h]
  · intro hblack i j hi hj hbit
    rw [halpha]
    have hne : s.mask_.empty = false := by apply empty_of_dims <;> omega
    simp only [composite_elem s hne, if_neg hbit, hblack]
    simp

/-- Witness for C7: the export of the seeded demo state has four channels, and its alpha
is 0 or 255 at the pixel in row 1, column 2. -/
theorem export_alpha_binary_witness :
    ∃ out : Mat,
      ProcessKeyPress demoLib demoSeeded 115
          = { should_exit := false, state := demoSeeded,
              effects := [Effect.imwrite demoSeeded.output_image_path_ out] }
      ∧ out.channels = 4 ∧ (out.elem 1 2 3 = 0 ∨ out.elem 1 2 3 = 255) :=
  (export_alpha_binary demoLib demoSeeded rfl).elim fun out h =>
    ⟨out, h.1, h.2.1, h.2.2.2.2.2.1 1 2⟩

/-! ## The absent drag start -/

/-- The key handler never touches the drag state. -/
theorem processKeyPress_start_point (cv : Lib M) (s : BgCut M) (key_pressed : Int) :
    (ProcessKeyPress cv s key_pressed).state.start_point_ = s.start_point_ := by
  unfold ProcessKeyPress
  split_ifs <;> rfl

/-- A release throws exactly when the mask is empty and no drag start is recorded. -/
theorem release_error_iff (cv : Lib M) (s : BgCut M) (x y flags : Int) :
    (∃ e, ProcessMouseEvent cv s EVENT_LBUTTONUP x y flags = Except.error e)
      ↔ s.mask_.empty = true ∧ s.start_point_ = none := by
  cases hm : s.mask_.empty <;> cases hp : s.start_point_ <;>
    simp [ProcessMouseEvent, EVENT_LBUTTONUP, EVENT_MOUSEMOVE, EVENT_LBUTTONDOWN, hm, hp]
  · exact ⟨Exn.bad_optional_access, trivial⟩
  · split_ifs <;> simp

/-- The mouse handler returns normally unless the event is a release on an empty mask
with no drag start recorded. -/
theorem processMouseEvent_ok (cv : Lib M) (s : BgCut M) (event x y flags : Int)
    (h : event = EVENT_LBUTTONUP → s.mask_.empty = true → s.start_point_.isSome = true) :
    ∃ s1 effs, ProcessMouseEvent cv s event x y flags = Except.ok (s1, effs) := by
  unfold ProcessMouseEvent
  split_ifs with h1 h2 h3 h4 h5
  · exact ⟨_, _, rfl⟩
  · exact ⟨_, _, rfl⟩
  · exact ⟨_, _, rfl⟩
  · exact ⟨_, _, rfl⟩
  · have hemp : s.mask_.empty = true := by simpa using h5
    have hsome := h h4 hemp
    cases hp : s.start_point_ with
    | none => simp [hp] at hsome
    | some start =>
      simp only
      split_ifs
      · exact ⟨_, _, rfl⟩
      · exact ⟨_, _, rfl⟩
  · exact ⟨_, _, rfl⟩

/-- How the mouse handler moves the drag state: a press records a start, and any event
other than a release keeps a recorded start. -/
theorem processMouseEvent_start_point (cv : Lib M) (s s1 : BgCut M) (event x y flags : Int)
    (effs : List (Effect M))
    (h : ProcessMouseEvent cv s event x y flags = Except.ok (s1, effs)) :
    (event = EVENT_LBUTTONDOWN → s1.start_point_.isSome = true)
    ∧ (event ≠ EVENT_LBUTTONUP → s.start_point_.isSome = true →
        s1.start_point_.isSome = true) := by
  unfold ProcessMouseEvent at h
  split_ifs at h with h1 h2 h3 h4 h5
  · simp only [Except.ok.injEq, Prod.mk.injEq] at h
    obtain ⟨rfl, _⟩ := h
    exact ⟨fun he => by simp [he, EVENT_LBUTTONDOWN, EVENT_MOUSEMOVE] at h1, fun _ hs => hs⟩
  · simp only [Except.ok.injEq, Prod.mk.injEq] at h
    obtain ⟨rfl, _⟩ := h
    exact ⟨fun he => by simp [he, EVENT_LBUTTONDOWN, EVENT_MOUSEMOVE] at h1, fun _ hs => hs⟩
  · simp only [Except.ok.injEq, Prod.mk.injEq] at h
    obtain ⟨rfl, _⟩ := h
    exact ⟨fun _ => rfl, fun _ _ => rfl⟩
  · exact ⟨fun he => by simp [he, EVENT_LBUTTONDOWN, EVENT_LBUTTONUP] at h4,
      fun hne => absurd h4 hne⟩
  · exact ⟨fun he => by simp [he, EVENT_LBUTTONDOWN, EVENT_LBUTTONUP] at h4,
      fun hne => absurd h4 hne⟩
  · simp only [Except.ok.injEq, Prod.mk.injEq] at h
    obtain ⟨rfl, _⟩ := h
    exact ⟨fun he => absurd he h3, fun _ hs => hs⟩

/-- A pending press in `e :: pre` is either `e` itself, with no release in `pre`, or a
pending press in `pre`. -/
theorem pressPending_cons (e : Event) (pre : List Event) (h : PressPending (e :: pre)) :
    (e.isPress = true ∧ ∀ e2 ∈ pre, Event.isRelease e2 = false) ∨ PressPending pre := by
  obtain ⟨a, e0, c, heq, hpress, hc⟩ := h
  cases a with
  | nil =>
    simp only [List.nil_append, List.cons.injEq] at heq
    obtain ⟨rfl, rfl⟩ := heq
    exact Or.inl ⟨hpress, hc⟩
  | cons a0 a =>
    simp only [List.cons_append, List.cons.injEq] at heq
    exact Or.inr ⟨a, e0, c, heq.2, hpress, hc⟩

/-- The run of the loop after one more mouse event in front. -/
theorem run_mouse_cons (cv : Lib M) (s s1 : BgCut M) (event x y flags : Int)
    (effs : List (Effect M)) (rest : List Event) (r : RunOutcome M)
    (h1 : ProcessMouseEvent cv s event x y flags = Except.ok (s1, effs))
    (h2 : Run cv s1 rest = Except.ok r) :
    Run cv s (Event.mouse event x y flags :: rest)
      = Except.ok { r with effects := effs ++ r.effects } := by
  simp [Run, h1, h2]

/-- The run of the loop after one more key in front that does not end the loop. -/
theorem run_key_cons (cv : Lib M) (s : BgCut M) (key_pressed : Int) (rest : List Event)
    (r : RunOutcome M) (h1 : (ProcessKeyPress cv s key_pressed).should_exit = false)
    (h2 : Run cv (ProcessKeyPress cv s key_pressed).state rest = Except.ok r) :
    Run cv s (Event.key key_pressed :: rest)
      = Except.ok { r with effects := (ProcessKeyPress cv s key_pressed).effects ++ r.effects }
    := by
  simp [Run, h1, h2]

/-- The run of the loop does not throw when every release that meets an empty mask has
either a pending press in the events before it, or a drag start recorded in the initial
state and no earlier release. -/
theorem run_ok_of_guarded (cv : Lib M) (es : List Event) :
    ∀ s : BgCut M,
      (∀ pre e post r, es = pre ++ e :: post → Event.isRelease e = true →
        Run cv s pre = Except.ok r → r.exited = false → r.state.mask_.empty = true →
        PressPending pre
          ∨ (s.start_point_.isSome = true ∧ ∀ e2 ∈ pre, Event.isRelease e2 = false)) →
      ∃ r, Run cv s es = Except.ok r := by
  induction es with
  | nil => intro s _; exact ⟨_, rfl⟩
  | cons e es ih =>
    intro s hg
    cases e with
    | key key_pressed =>
      cases hx : (ProcessKeyPress cv s key_pressed).should_exit with
      | true =>
        exact ⟨{ exited := true, state := (ProcessKeyPress cv s key_pressed).state,
                 effects := (ProcessKeyPress cv s key_pressed).effects }, by simp [Run, hx]⟩
      | false =>
        have hrest : ∃ r, Run cv (ProcessKeyPress cv s key_pressed).state es = Except.ok r := by
          apply ih
          intro pre e1 post r heq hrel hrun hex hemp
          have hrun2 := run_key_cons cv s key_pressed pre r hx hrun
          rcases hg (Event.key key_pressed :: pre) e1 post _ (by simp [heq]) hrel hrun2 hex
            hemp with h | ⟨h1, h2⟩
          · rcases pressPending_cons _ _ h with ⟨hp, _⟩ | h
            · simp [Event.isPress] at hp
            · exact Or.inl h
          · refine Or.inr ⟨?_, fun e2 he2 => h2 e2 (List.mem_cons_of_mem _ he2)⟩
            rw [processKeyPress_start_point]
            exact h1
        obtain ⟨r, hr⟩ := hrest
        exact ⟨_, run_key_cons cv s key_pressed es r hx hr⟩
    | mouse event x y flags =>
      have hok : ∃ s1 effs, ProcessMouseEvent cv s event x y flags = Except.ok (s1, effs) := by
        apply processMouseEvent_ok
        intro hev hemp
        rcases hg [] (Event.mouse event x y flags) es _ rfl (by simp [Event.isRelease, hev])
          rfl rfl hemp with h | ⟨h1, _⟩
        · obtain ⟨a, e0, c, heq, _⟩ := h
          simp at heq
        · exact h1
      obtain ⟨s1, effs, hpme⟩ := hok
      have hsp := processMouseEvent_start_point cv s s1 event x y flags effs hpme
      have hrest : ∃ r, Run cv s1 es = Except.ok r := by
        apply ih
        intro pre e1 post r heq hrel hrun hex hemp
        have hrun2 := run_mouse_cons cv s s1 event x y flags effs pre r hpme hrun
        rcases hg (Event.mouse event x y flags :: pre) e1 post _ (by simp [heq]) hrel hrun2
          hex hemp with h | ⟨h1, h2⟩
        · rcases pressPending_cons _ _ h with ⟨hp, hnr⟩ | h
          · refine Or.inr ⟨hsp.1 ?_, hnr⟩
            simpa [Event.isPress] using hp
          · exact Or.inl h
        · have hnr := h2 (Event.mouse event x y flags) (List.mem_cons_self _ _)
          refine Or.inr ⟨hsp.2 ?_ h1, fun e2 he2 => h2 e2 (List.mem_cons_of_mem _ he2)⟩
          simpa [Event.isRelease] using hnr
      obtain ⟨r, hr⟩ := hrest
      exact ⟨_, run_mouse_cons cv s s1 event x y flags effs es r hpme hr⟩

/-- C10: a release throws `std::bad_optional_access` exactly when the mask is empty and no
drag start is recorded; consequently the loop run on any event sequence in which every
release that meets an empty mask is preceded by a press with no release in between ends
without an exception. -/
theorem release_fails_iff_no_drag (cv : Lib M) (s : BgCut M) :
    (∀ x y flags : Int,
      ProcessMouseEvent cv s EVENT_LBUTTONUP x y flags = Except.error Exn.bad_optional_access
        ↔ s.mask_.empty = true ∧ s.start_point_ = none)
    ∧ (∀ es : List Event,
        (∀ pre e post r, es = pre ++ e :: post → Event.isRelease e = true →
          Run cv s pre = Except.ok r → r.exited = false → r.state.mask_.empty = true →
          PressPending pre) →
        ∃ r, Run cv s es = Except.ok r) := by
  constructor
  · intro x y flags
    rw [← release_error_iff cv s x y flags]
    constructor
    · intro h; exact ⟨_, h⟩
    · rintro ⟨e, h⟩
      cases e
      exact h
  · intro es hg
    apply run_ok_of_guarded
    intro pre e post r heq hrel hrun hex hemp
    exact Or.inl (hg pre e post r heq hrel hrun hex hemp)

/-- Witness for C10: from the initial demo state a press at (1, 1) followed by a release
at (3, 3) runs without an exception, while a release alone throws. -/
theorem release_fails_iff_no_drag_witness :
    (∃ r, Run demoLib demoInit
        [Event.mouse EVENT_LBUTTONDOWN 1 1 0, Event.mouse EVENT_LBUTTONUP 3 3 0] = Except.ok r)
      ∧ ProcessMouseEvent demoLib demoInit EVENT_LBUTTONUP 3 3 0
          = Except.error Exn.bad_optional_access := by
  refine ⟨(release_fails_iff_no_drag demoLib demoInit).2 _ ?_,
    ((release_fails_iff_no_drag demoLib demoInit).1 3 3 0).2 ⟨rfl, rfl⟩⟩
  intro pre e post r heq hrel _ _ _
  rcases pre with _ | ⟨p1, _ | ⟨p2, pre⟩⟩
  · simp only [List.nil_append, List.cons.injEq] at heq
    rw [← heq.1] at hrel
    simp [Event.isRelease, EVENT_LBUTTONDOWN, EVENT_LBUTTONUP] at hrel
  · simp only [List.cons_append, List.nil_append, List.cons.injEq] at heq
    exact ⟨[], p1, [], rfl, by rw [← heq.1]; rfl, by simp⟩
  · simp at heq

end BgCut
